import Mathlib

/-!
# Verification of the `csound::CSound` controller (Csound.hxx)

This file gives a shallow embedding of the thread-safety core of the
single-header C++ library `inst/include/csound/Csound.hxx`: the command
(thread-event) representations, the performance-loop routine
(`CSound::performanceThreadRoutine`), and the controller lifecycle
(`CSound::perform`, `CSound::stop`, `CSound::destroy`), together with the
argument tokenizer (`ArgParser`) and the `getControlChannel` accessor.

Modelling conventions:
* `MYFLT` (a C floating-point type) is modelled by `Int`; the values are
  only carried and compared, never computed on.
* The external Csound engine C API is modelled as an oracle: each call the
  controller makes to the engine is recorded as an `EngineOp` in a trace,
  and return codes of engine calls are supplied as parameters.
* The concurrent environment of the performance loop (producers pushing
  commands onto the lock-free queue, another thread calling `stop`) is
  supplied as a schedule: for each loop iteration, the batch of commands
  popped during that iteration's drain, whether `stop` cleared the running
  flag before that iteration's condition check, and the value
  `csoundPerformKsmps` returns for that iteration's block.
-/

/-- A command carried through the lock-free queue: the closed set of
`CsoundThreadEvent` subclasses in the source (`CsoundThreadEventScore`
holding score text, `CsoundThreadEventScoreEvent` holding an opcode and
pfields). -/
inductive Command where
  | scoreText (text : String)
  | scoreEvent (opcode : Int) (pfields : List Int)
deriving DecidableEq, Repr

/-- One call into the Csound engine C API made by the performance thread,
with the return code the engine produced where the source receives one. -/
inductive EngineOp where
  | readScore (text : String) (result : Int)
  | scoreEventCall (opcode : Int) (pfields : List Int) (result : Int)
  | performKsmps (result : Int)
  | cleanup (result : Int)
  | reset
deriving DecidableEq, Repr

/-! ## The `CsoundThreadEventScoreEvent` constructor

The source constructor is

```
CsoundThreadEventScoreEvent(char opcode_, MYFLT *pfields_, int pfield_count)
{
    opcode = opcode_;
    for (int i = 0; i < pfield_count; ++pfield_count) {
        pfields.push_back(pfields[i]);
    }
}
```

The loop's update expression increments `pfield_count` (the bound), never
`i`, and the body reads `pfields[i]` — the member `std::vector` being
built, which starts empty — instead of the caller's buffer `pfields_`.
We embed the loop step-by-step with a fuel parameter: `none` means the
loop either read out of the member vector's bounds (undefined behaviour
in the source) or failed to terminate within the given fuel. -/

/-- The constructor's copy loop. State: loop counter `i`, current bound
`pfield_count`, the caller's buffer `caller` (present but, as in the
source, never read), and the member vector `member` built so far. -/
def ctorPfieldsLoop (fuel : Nat) (i : Int) (pfield_count : Int)
    (caller : List Int) (member : List Int) : Option (List Int) :=
  match fuel with
  | 0 => none
  | fuel + 1 =>
    if i < pfield_count then
      match member.get? i.toNat with
      | none => none
      | some v => ctorPfieldsLoop fuel i (pfield_count + 1) caller (member ++ [v])
    else
      some member

/-- The `pfields` member produced by constructing
`CsoundThreadEventScoreEvent(opcode, caller, pfield_count)`, starting
from the empty member vector with `i = 0`. -/
def scoreEventCtorPfields (fuel : Nat) (caller : List Int)
    (pfield_count : Int) : Option (List Int) :=
  ctorPfieldsLoop fuel 0 pfield_count caller []

/-! ## `ArgParser`

The source constructor tokenizes the command string with
`strtok(buffer, " \t\r\n")`, pushes the first token once if it is
non-null, then pushes it again unconditionally (null included), then
pushes every further token. -/

/-- The `strtok` delimiter set `" \t\r\n"` used by `ArgParser`. -/
def isDelim (c : Char) : Bool :=
  c == ' ' || c == '\t' || c == '\r' || c == '\n'

/-- Splits a character list into the maximal delimiter-free runs that
successive `strtok` calls return; `acc` is the (reversed) run being
accumulated. -/
def tokensAux : List Char → List Char → List (List Char)
  | [], acc => if acc.isEmpty then [] else [acc.reverse]
  | c :: rest, acc =>
    if isDelim c then
      if acc.isEmpty then tokensAux rest []
      else acc.reverse :: tokensAux rest []
    else
      tokensAux rest (c :: acc)

/-- The sequence of tokens `strtok` yields on the `ArgParser` buffer. -/
def strtokTokens (s : String) : List (List Char) :=
  tokensAux s.toList []

/-- The `argv` vector the `ArgParser` constructor builds: `none` models a
null `char *`. Mirrors the source: the first `strtok` result is pushed
once when non-null, then pushed again unconditionally, then the `while`
loop pushes each further token. -/
def argParserArgv (s : String) : List (Option (List Char)) :=
  let ts := strtokTokens s
  let token := ts.head?
  let argvIfToken : List (Option (List Char)) :=
    match token with
    | some t => [some t]
    | none => []
  argvIfToken ++ [token] ++ (ts.drop 1).map some

/-! ## `CSound::performanceThreadRoutine`

The source routine is

```
if (is_running) { return is_running; }
is_running = 1;
int is_finished = 0;
CsoundThreadEvent *event = 0;
while ((is_running == 1) && (is_finished == 0)) {
    while (csound_event_queue.pop(event)) {
        (*event)(csound);
        delete event;
    }
    is_finished = csoundPerformKsmps(csound);
}
int result = csoundCleanup(csound);
csoundReset(csound);
while (csound_event_queue.pop(event)) {
    delete event;
}
return result;
```

The concurrent environment supplies, per candidate iteration, the batch
of commands the drain pops, whether another thread's `stop` cleared
`is_running` before this iteration's condition check, and this
iteration's `csoundPerformKsmps` return value. -/

/-- The environment of one candidate iteration of the main loop. -/
structure LoopIter where
  stopBefore : Bool
  cmds : List Command
  ksmpsRes : Int
deriving DecidableEq, Repr

/-- Applying one dequeued event, `(*event)(csound)`: the virtual call
forwards to `csoundReadScore` or `csoundScoreEvent`; `applyRes` is the
oracle giving the return code of that engine call (which the source
discards). -/
def applyOp (applyRes : Command → Int) : Command → EngineOp
  | .scoreText s => .readScore s (applyRes (.scoreText s))
  | .scoreEvent opcode pfields =>
      .scoreEventCall opcode pfields (applyRes (.scoreEvent opcode pfields))

/-- The main `while ((is_running == 1) && (is_finished == 0))` loop,
returning the trace of engine calls it makes. An exhausted schedule means
the run is observed no further. -/
def mainLoop (applyRes : Command → Int) :
    List LoopIter → Int → List EngineOp
  | [], _ => []
  | it :: rest, is_finished =>
    if it.stopBefore = false ∧ is_finished = 0 then
      it.cmds.map (applyOp applyRes)
        ++ EngineOp.performKsmps it.ksmpsRes :: mainLoop applyRes rest it.ksmpsRes
    else []

/-- The iterations whose bodies actually execute: the schedule's longest
prefix on which the loop condition keeps holding. -/
def executedIters : List LoopIter → Int → List LoopIter
  | [], _ => []
  | it :: rest, is_finished =>
    if it.stopBefore = false ∧ is_finished = 0 then
      it :: executedIters rest it.ksmpsRes
    else []

/-- The engine calls one executed iteration contributes: every command of
its drain, applied in dequeue order, followed by the single
`csoundPerformKsmps` call. -/
def iterTrace (applyRes : Command → Int) (it : LoopIter) : List EngineOp :=
  it.cmds.map (applyOp applyRes) ++ [EngineOp.performKsmps it.ksmpsRes]

/-- The final `while (csound_event_queue.pop(event)) delete event;` drain
after the engine has been reset: each pop removes one command and makes
no engine call. Returns the engine calls made (none) and the queue
contents left behind. -/
def finalDrain : List Command → List EngineOp × List Command
  | [] => ([], [])
  | _ :: rest => finalDrain rest

/-- The outcome of one call of `performanceThreadRoutine`. -/
structure RoutineOut where
  trace : List EngineOp
  ret : Int
  queueAfter : List Command
deriving DecidableEq, Repr

/-- `CSound::performanceThreadRoutine`, over the iteration schedule
`sched`, the `csoundCleanup` return value `cleanupRes`, and the queue
contents `leftover` present at loop exit. -/
def performanceThreadRoutine (applyRes : Command → Int) (is_running0 : Int)
    (sched : List LoopIter) (cleanupRes : Int) (leftover : List Command) :
    RoutineOut :=
  if is_running0 ≠ 0 then
    ⟨[], is_running0, leftover⟩
  else
    let drained := finalDrain leftover
    ⟨mainLoop applyRes sched 0
        ++ [EngineOp.cleanup cleanupRes, EngineOp.reset] ++ drained.1,
      cleanupRes, drained.2⟩

/-! ## The controller lifecycle: `stop`, `perform`, `destroy`

The controller state holds the fields of `class CSound` the lifecycle
methods touch: whether `csound` is non-null, the `char is_running` flag,
the `performance_thread` pointer (`none` = null, `some tid` = a thread
handle), and the queue contents; `next_tid` supplies fresh thread
identities. Calls that leave the controller (joining a thread, destroying
the engine, spawning a thread) are recorded as `CtlAction`s. -/

/-- An observable action a controller lifecycle method performs. -/
inductive CtlAction where
  | joinThread (tid : Nat)
  | spawnThread (tid : Nat)
  | engineDestroy
deriving DecidableEq, Repr

/-- The controller fields of `class CSound` used by the lifecycle. -/
structure Ctl where
  csound : Bool
  is_running : Int
  thread : Option Nat
  next_tid : Nat
  queue : List Command
deriving DecidableEq, Repr

namespace CSound

/-- `CSound::stop`: saves `is_running`, clears it, and if a performance
thread exists joins it, deletes it and nulls the pointer; returns the
saved flag. -/
def stop (s : Ctl) : Ctl × Int × List CtlAction :=
  let temp := s.is_running
  let s1 : Ctl := { s with is_running := 0 }
  match s1.thread with
  | none => (s1, temp, [])
  | some tid => ({ s1 with thread := none }, temp, [CtlAction.joinThread tid])

/-- `CSound::perform`: calls `stop()`, then allocates a new thread
running the loop routine and returns its (non-null) handle. -/
def perform (s : Ctl) : Ctl × Nat × List CtlAction :=
  let r := stop s
  let tid := r.1.next_tid
  ({ r.1 with thread := some tid, next_tid := tid + 1 },
    tid, r.2.2 ++ [CtlAction.spawnThread tid])

/-- `CSound::destroy`: when `csound` is non-null, calls `stop()` and then
`csoundDestroy(csound)`; otherwise does nothing. -/
def destroy (s : Ctl) : Ctl × List CtlAction :=
  if s.csound then
    ((stop s).1, (stop s).2.2 ++ [CtlAction.engineDestroy])
  else
    (s, [])

/-- `CSound::~CSound`: the destructor just calls `destroy()`. -/
def dtor (s : Ctl) : Ctl × List CtlAction :=
  destroy s

/-- `CSound::getControlChannel`: reads the channel through
`csoundGetControlChannel`, which also writes an error code; returns the
error code when it is non-zero and the value otherwise. The engine is an
oracle giving `(value, error)` per channel name. -/
def getControlChannel (engine : String → Int × Int) (channel : String) : Int :=
  let value := (engine channel).1
  let error := (engine channel).2
  if error ≠ 0 then error else value

end CSound

/-- Engine operations that render one block (`csoundPerformKsmps`). -/
def isRender : EngineOp → Bool
  | .performKsmps _ => true
  | _ => false

/-- Engine operations that apply a queued command (`csoundReadScore` or
`csoundScoreEvent`). -/
def isApply : EngineOp → Bool
  | .readScore _ _ => true
  | .scoreEventCall _ _ _ => true
  | _ => false

/-- Forgets the engine-supplied return code of an operation, keeping what
the controller chose to do. -/
def eraseResult : EngineOp → EngineOp
  | .readScore s _ => .readScore s 0
  | .scoreEventCall o p _ => .scoreEventCall o p 0
  | .performKsmps r => .performKsmps r
  | .cleanup r => .cleanup r
  | .reset => .reset

/-! ## Theorems -/

/-- C1: the spec requires the `CsoundThreadEventScoreEvent` constructor to
copy exactly `pfield_count` elements `pfields_[0] .. pfields_[pfield_count-1]`
from the caller's buffer. The source loop increments `pfield_count`
instead of `i` and reads the member vector instead of the caller's
buffer, so for `pfield_count = 1` the construction never terminates with
the copied buffer — for every fuel it reads out of bounds of the empty
member vector (undefined behaviour) and in particular never produces the
single-element copy `[v]` the claim requires, whatever the caller's
buffer holds. -/
theorem scoreEventCtor_never_copies_one_pfield (fuel : Nat) (v : Int) :
    scoreEventCtorPfields fuel [v] 1 = none ∧
    scoreEventCtorPfields fuel [v] 1 ≠ some [v] := by
  have h : scoreEventCtorPfields fuel [v] 1 = none := by
    cases fuel with
    | zero => rfl
    | succ n => simp [scoreEventCtorPfields, ctorPfieldsLoop]
  exact ⟨h, by simp [h]⟩

/-- Helper for C9: a string of delimiters yields no token. -/
theorem tokensAux_nil_of_all_delim (l : List Char) (h : l.all isDelim = true) :
    tokensAux l [] = [] := by
  induction l with
  | nil => rfl
  | cons c rest ih =>
    simp only [List.all_cons, Bool.and_eq_true] at h
    simp [tokensAux, h.1, ih h.2]

/-- C9: the `ArgParser` constructor stores the first `strtok` token an
extra unconditional time: when the command string has at least one token
`t`, the built `argv` is `t :: t :: rest` (so `argv[1] = argv[0]`), and
when the string is empty or whitespace-only the single stored entry is
the null pointer. -/
theorem argParser_duplicates_first_token (s : String) :
    (∀ t rest, strtokTokens s = t :: rest →
        argParserArgv s = some t :: some t :: rest.map some) ∧
    (s.toList.all isDelim = true → argParserArgv s = [none]) := by
  constructor
  · intro t rest h
    simp [argParserArgv, h]
  · intro h
    have ht : strtokTokens s = [] := tokensAux_nil_of_all_delim _ h
    simp [argParserArgv, ht]

/-- C9 witness: on `"ab c"` the first token `ab` appears twice, and a
whitespace-only string stores only the null pointer. -/
theorem argParser_duplicates_first_token_witness :
    argParserArgv "ab c" = [some ['a', 'b'], some ['a', 'b'], some ['c']] ∧
    argParserArgv " " = [none] := by
  constructor
  · exact (argParser_duplicates_first_token "ab c").1 ['a', 'b'] [['c']] (by decide)
  · exact (argParser_duplicates_first_token " ").2 (by decide)

/-- C10: when the engine reports a non-zero error for
`getControlChannel`, the method returns the error code itself as the
channel value; consequently an engine whose successful read has a value
numerically equal to that error code is indistinguishable to the
caller. -/
theorem getControlChannel_error_code_conflation (engine : String → Int × Int)
    (channel : String) (h : (engine channel).2 ≠ 0) :
    CSound.getControlChannel engine channel = (engine channel).2 ∧
    CSound.getControlChannel (fun _ => ((engine channel).2, 0)) channel =
      CSound.getControlChannel engine channel := by
  refine ⟨?_, ?_⟩ <;> simp [CSound.getControlChannel, h]

/-- C10 witness: an engine failing with error `-3` on channel `"amp"`
returns `-3`, exactly as an engine successfully reading value `-3`. -/
theorem getControlChannel_error_code_conflation_witness :
    CSound.getControlChannel (fun _ => (7, -3)) "amp" = -3 ∧
    CSound.getControlChannel (fun _ => (-3, 0)) "amp" =
      CSound.getControlChannel (fun _ => (7, -3)) "amp" := by
  have h := getControlChannel_error_code_conflation (fun _ => (7, -3)) "amp" (by decide)
  exact ⟨h.1, h.2⟩

/-- C5: when no performance is running (`is_running = 0`) and no thread
handle is held, `stop` returns the previous running flag `0`, performs no
join, and leaves the whole controller state — engine handle and queue
included — unchanged. -/
theorem stop_not_running_noop (s : Ctl) (h1 : s.is_running = 0)
    (h2 : s.thread = none) :
    CSound.stop s = (s, 0, []) := by
  obtain ⟨cs, ir, th, nt, q⟩ := s
  subst h2
  simp only at h1
  subst h1
  rfl

/-- C5 witness: a never-started controller with a queued command is left
untouched by `stop`, which returns `0` and performs no action. -/
theorem stop_not_running_noop_witness :
    CSound.stop ⟨true, 0, none, 5, [Command.scoreText "i1 0 1"]⟩ =
      (⟨true, 0, none, 5, [Command.scoreText "i1 0 1"]⟩, 0, []) :=
  stop_not_running_noop ⟨true, 0, none, 5, [Command.scoreText "i1 0 1"]⟩ rfl rfl

/-- C6: after `stop` returns, the running flag is cleared and the stored
thread pointer is null, and a subsequent `perform` on the resulting state
succeeds without error: it needs no join, spawns a fresh thread, stores
it and returns its handle. -/
theorem stop_clears_thread_and_restart_succeeds (s : Ctl) :
    (CSound.stop s).1.is_running = 0 ∧
    (CSound.stop s).1.thread = none ∧
    (CSound.perform (CSound.stop s).1).1.thread =
      some (CSound.stop s).1.next_tid ∧
    (CSound.perform (CSound.stop s).1).2.1 = (CSound.stop s).1.next_tid ∧
    (CSound.perform (CSound.stop s).1).2.2 =
      [CtlAction.spawnThread (CSound.stop s).1.next_tid] := by
  obtain ⟨cs, ir, th, nt, q⟩ := s
  cases th <;> simp [CSound.stop, CSound.perform]

/-- C2 counterexample: in a `Running` state (flag set, live thread `0`),
`perform` does not fail: it joins — and thereby discards — the existing
performance thread, spawns the fresh thread `1`, stores it and returns
its handle, contradicting the claim that a second start fails visibly
rather than restarting the performance. -/
theorem perform_while_running_restarts_cex :
    CSound.perform ⟨true, 1, some 0, 1, []⟩ =
      (⟨true, 0, some 1, 2, []⟩, 1,
        [CtlAction.joinThread 0, CtlAction.spawnThread 1]) := rfl

/-- C2 amended: calling `perform` while a performance is `Running` is not
a visible failure; `perform` first calls `stop`, which joins and discards
the existing performance thread, then spawns a fresh thread and returns
its handle. -/
theorem perform_while_running_stops_then_restarts (s : Ctl) (tid : Nat)
    (_h1 : s.is_running = 1) (h2 : s.thread = some tid) :
    (CSound.perform s).2.2 =
      [CtlAction.joinThread tid, CtlAction.spawnThread s.next_tid] ∧
    (CSound.perform s).1.thread = some s.next_tid ∧
    (CSound.perform s).2.1 = s.next_tid := by
  obtain ⟨cs, ir, th, nt, q⟩ := s
  simp only at h2
  subst h2
  simp [CSound.perform, CSound.stop]

/-- C2 amended witness: in the `Running` state with thread `7`, `perform`
joins thread `7`, then spawns, stores and returns thread `9`. -/
theorem perform_while_running_stops_then_restarts_witness :
    (CSound.perform ⟨true, 1, some 7, 9, []⟩).2.2 =
      [CtlAction.joinThread 7, CtlAction.spawnThread 9] ∧
    (CSound.perform ⟨true, 1, some 7, 9, []⟩).1.thread = some 9 ∧
    (CSound.perform ⟨true, 1, some 7, 9, []⟩).2.1 = 9 :=
  perform_while_running_stops_then_restarts ⟨true, 1, some 7, 9, []⟩ 7 rfl rfl

/-- C8 counterexample: in a state with a null engine handle but a live
running performance thread, `destroy` does not call `stop` — the running
flag and the thread handle are left untouched, no join happens and no
release happens — contradicting the claim that `destroy` calls `stop`
first in every controller state. -/
theorem destroy_without_engine_skips_stop_cex :
    CSound.destroy ⟨false, 1, some 0, 1, []⟩ =
      (⟨false, 1, some 0, 1, []⟩, []) := rfl

/-- C8 amended: `destroy` is a no-op when the engine handle is null;
when an engine handle is held, it calls `stop` first — so at the moment
`csoundDestroy` runs, the performance thread has been joined and the
handle cleared — and only then releases the engine, the release being the
last action; the destructor takes exactly the `destroy` path. -/
theorem destroy_stops_then_releases (s : Ctl) :
    (s.csound = false → CSound.destroy s = (s, [])) ∧
    (s.csound = true →
      (CSound.destroy s).2 = (CSound.stop s).2.2 ++ [CtlAction.engineDestroy] ∧
      (CSound.destroy s).1.thread = none ∧
      (CSound.destroy s).1.is_running = 0 ∧
      CtlAction.engineDestroy ∉ (CSound.stop s).2.2) ∧
    CSound.dtor s = CSound.destroy s := by
  refine ⟨?_, ?_, rfl⟩
  · intro h
    simp [CSound.destroy, h]
  · intro h
    obtain ⟨cs, ir, th, nt, q⟩ := s
    simp only at h
    subst h
    cases th <;> simp [CSound.destroy, CSound.stop]

/-- C8 amended witness: with an engine held and thread `3` running,
`destroy` joins thread `3` and then releases the engine, leaving the flag
cleared and the thread handle null; with no engine held it does
nothing. -/
theorem destroy_stops_then_releases_witness :
    ((CSound.destroy ⟨true, 1, some 3, 4, []⟩).2 =
        (CSound.stop ⟨true, 1, some 3, 4, []⟩).2.2 ++ [CtlAction.engineDestroy] ∧
      (CSound.destroy ⟨true, 1, some 3, 4, []⟩).1.thread = none ∧
      (CSound.destroy ⟨true, 1, some 3, 4, []⟩).1.is_running = 0 ∧
      CtlAction.engineDestroy ∉ (CSound.stop ⟨true, 1, some 3, 4, []⟩).2.2) ∧
    CSound.destroy ⟨false, 0, none, 6, []⟩ = (⟨false, 0, none, 6, []⟩, []) :=
  ⟨(destroy_stops_then_releases ⟨true, 1, some 3, 4, []⟩).2.1 rfl,
    (destroy_stops_then_releases ⟨false, 0, none, 6, []⟩).1 rfl⟩

/-- Helper: applying a queued command never renders a block. -/
theorem countP_isRender_applyOp (applyRes : Command → Int)
    (cmds : List Command) :
    (cmds.map (applyOp applyRes)).countP isRender = 0 := by
  induction cmds with
  | nil => rfl
  | cons c rest ih =>
    cases c <;> simp [applyOp, isRender, List.countP_cons, ih]

/-- C3: the engine trace of the main loop is, iteration by iteration, the
commands the drain popped — applied in dequeue order — followed by the
single `csoundPerformKsmps` render for that iteration; in particular the
loop renders exactly one block per executed iteration and never renders
while a command popped at that iteration's drain is still unapplied. -/
theorem mainLoop_drains_then_renders (applyRes : Command → Int)
    (sched : List LoopIter) (is_finished : Int) :
    mainLoop applyRes sched is_finished =
      ((executedIters sched is_finished).map (iterTrace applyRes)).flatten ∧
    (mainLoop applyRes sched is_finished).countP isRender =
      (executedIters sched is_finished).length := by
  induction sched generalizing is_finished with
  | nil => exact ⟨rfl, rfl⟩
  | cons it rest ih =>
    by_cases h : it.stopBefore = false ∧ is_finished = 0
    · obtain ⟨hs, hf⟩ := h
      subst hf
      obtain ⟨e1, e2⟩ := ih it.ksmpsRes
      have hm : mainLoop applyRes (it :: rest) 0 =
          List.map (applyOp applyRes) it.cmds
            ++ EngineOp.performKsmps it.ksmpsRes
              :: mainLoop applyRes rest it.ksmpsRes := by
        simp [mainLoop, hs]
      have he : executedIters (it :: rest) 0 =
          it :: executedIters rest it.ksmpsRes := by
        simp [executedIters, hs]
      constructor
      · rw [hm, he, e1]
        simp [iterTrace]
      · rw [hm, he, List.countP_append, List.countP_cons,
          countP_isRender_applyOp, e2]
        simp [isRender]
    · constructor
      · simp [mainLoop, executedIters, if_neg h]
      · simp [mainLoop, executedIters, if_neg h]

/-- Helper for C4: the post-reset drain removes every queued command and
makes no engine call. -/
theorem finalDrain_discards_all (leftover : List Command) :
    finalDrain leftover = ([], []) := by
  induction leftover with
  | nil => rfl
  | cons c rest ih => exact ih

/-- C4: when the loop routine's main loop exits, the routine calls engine
cleanup, then engine reset, and then drains the queue discarding every
remaining command without applying it: whatever commands were left in the
queue, the trace ends with exactly `cleanup` then `reset` — no command
application follows the render phase — and the queue is empty when the
routine returns, its return value being the cleanup result. -/
theorem routine_exit_cleanup_reset_drain (applyRes : Command → Int)
    (sched : List LoopIter) (cleanupRes : Int) (leftover : List Command) :
    performanceThreadRoutine applyRes 0 sched cleanupRes leftover =
      ⟨mainLoop applyRes sched 0
          ++ [EngineOp.cleanup cleanupRes, EngineOp.reset],
        cleanupRes, []⟩ ∧
    ((performanceThreadRoutine applyRes 0 sched cleanupRes leftover).trace.drop
        (mainLoop applyRes sched 0).length).countP isApply = 0 := by
  have e : performanceThreadRoutine applyRes 0 sched cleanupRes leftover =
      ⟨mainLoop applyRes sched 0
          ++ [EngineOp.cleanup cleanupRes, EngineOp.reset],
        cleanupRes, []⟩ := by
    simp [performanceThreadRoutine, finalDrain_discards_all]
  refine ⟨e, ?_⟩
  rw [e]
  simp only [List.drop_left]
  simp [isApply, List.countP_cons]

/-- Helper for C7: after forgetting the engine's return code, applying a
command is the same engine call whatever the code was. -/
theorem eraseResult_applyOp (r1 r2 : Command → Int) (c : Command) :
    eraseResult (applyOp r1 c) = eraseResult (applyOp r2 c) := by
  cases c <;> rfl

/-- Helper for C7: forgetting return codes does not change which
operations are renders. -/
theorem isRender_eraseResult (op : EngineOp) :
    isRender (eraseResult op) = isRender op := by
  cases op <;> rfl

/-- C7: the return codes of applying queued commands (the values
`(*event)(csound)` produces, e.g. errors for malformed score text) do not
influence the loop at all: under any two result oracles the loop makes
the same engine calls in the same order — same commands applied, same
blocks rendered — differing at most in the recorded return codes, and in
particular an error from one command never terminates the loop. -/
theorem apply_errors_do_not_stop_loop (r1 r2 : Command → Int)
    (sched : List LoopIter) (is_finished : Int) :
    (mainLoop r1 sched is_finished).map eraseResult =
      (mainLoop r2 sched is_finished).map eraseResult ∧
    (mainLoop r1 sched is_finished).countP isRender =
      (mainLoop r2 sched is_finished).countP isRender := by
  have e : ∀ fin, (mainLoop r1 sched fin).map eraseResult =
      (mainLoop r2 sched fin).map eraseResult := by
    induction sched with
    | nil => intro fin; rfl
    | cons it rest ih =>
      intro fin
      by_cases h : it.stopBefore = false ∧ fin = 0
      · obtain ⟨hs, hf⟩ := h
        subst hf
        have hm : ∀ r : Command → Int, mainLoop r (it :: rest) 0 =
            List.map (applyOp r) it.cmds
              ++ EngineOp.performKsmps it.ksmpsRes
                :: mainLoop r rest it.ksmpsRes := by
          intro r
          simp [mainLoop, hs]
        rw [hm r1, hm r2, List.map_append, List.map_append, List.map_cons,
          List.map_cons, List.map_map, List.map_map, ih it.ksmpsRes]
        congr 1
        exact List.map_congr_left fun c _ => eraseResult_applyOp r1 r2 c
      · simp [mainLoop, if_neg h]
  refine ⟨e is_finished, ?_⟩
  have c1 : ∀ l : List EngineOp,
      (l.map eraseResult).countP isRender = l.countP isRender := by
    intro l
    rw [List.countP_map]
    exact List.countP_congr fun op _ => by
      rw [Function.comp_apply, isRender_eraseResult op]
  calc (mainLoop r1 sched is_finished).countP isRender
      = ((mainLoop r1 sched is_finished).map eraseResult).countP isRender :=
        (c1 _).symm
    _ = ((mainLoop r2 sched is_finished).map eraseResult).countP isRender := by
        rw [e is_finished]
    _ = (mainLoop r2 sched is_finished).countP isRender := c1 _

